import Mathlib

/-!
Verification of the anti-repetition core of the Bedtime story generator.

The definitions below are a shallow embedding of the Python sources
`app.py` and `bedtime_story_maker.py`.  Python strings become `String`,
Python lists become `List`, Python sets of token tuples become
`Finset (List String)`, Python `int` becomes `Int`, Python floats that
only ever hold exact ratios become `Rat`, and fallible operations
(`str.format`, which raises `KeyError` when a placeholder is missing)
become `Option`-valued functions.
-/

namespace Bedtime

/-- Python `str.replace(old, new)` over character lists: replace every
non-overlapping occurrence of `old`, scanning left to right.  The fuel
argument (instantiated with the input length, an upper bound on the
number of steps since every step consumes at least one character) makes
the recursion structural.  All call sites in the source pass a non-empty
`old`; for `old = []` this function is the identity (Python's behaviour
for an empty pattern differs, but it is never exercised). -/
def replaceAllCharsGo (old new : List Char) : Nat → List Char → List Char
  | 0, s => s
  | _ + 1, [] => []
  | fuel + 1, c :: rest =>
    if old ≠ [] ∧ old.isPrefixOf (c :: rest) then
      new ++ replaceAllCharsGo old new fuel ((c :: rest).drop old.length)
    else
      c :: replaceAllCharsGo old new fuel rest

/-- Python `str.replace(old, new)` on character lists. -/
def replaceAllChars (old new s : List Char) : List Char :=
  replaceAllCharsGo old new s.length s

/-- Python `s.replace(old, new)`. -/
def pyReplace (s old new : String) : String :=
  String.mk (replaceAllChars old.data new.data s.data)

/-- Python `s.replace(old, new, 1)`: replace only the first occurrence. -/
def replaceFirstChars (old new : List Char) : List Char → List Char
  | [] => []
  | c :: rest =>
    if old ≠ [] ∧ old.isPrefixOf (c :: rest) then
      new ++ (c :: rest).drop old.length
    else
      c :: replaceFirstChars old new rest

/-- Python `s.replace(old, new, 1)` on strings. -/
def pyReplaceFirst (s old new : String) : String :=
  String.mk (replaceFirstChars old.data new.data s.data)

/-- Python `s.lower()`.  All strings in the data banks are ASCII (plus the
em-dash, on which lowering is the identity), so per-character
`Char.toLower` is faithful. -/
def pyLower (s : String) : String := String.mk (s.data.map Char.toLower)

/-- Python `s.endswith(c)` for a single-character suffix (the only form
the sources use: `"."`, `"!"`, `"?"`). -/
def endsWithChar (s : String) (c : Char) : Bool := s.data.getLast? == some c

/-- Helper for `pyWords`: split a character list on whitespace runs,
dropping empty fields, accumulating the current word reversed. -/
def pyWordsGo : List Char → List Char → List String
  | [], cur => if cur = [] then [] else [String.mk cur.reverse]
  | c :: cs, cur =>
    if c.isWhitespace then
      (if cur = [] then pyWordsGo cs [] else String.mk cur.reverse :: pyWordsGo cs [])
    else
      pyWordsGo cs (c :: cur)

/-- Python `s.split()` (no argument): split on whitespace runs, no empty
fields, leading/trailing whitespace ignored. -/
def pyWords (s : String) : List String := pyWordsGo s.data []

/-- Source `s.lower().split()`, the tokenization used by the repetition guard. -/
def pyTokens (s : String) : List String := pyWords (pyLower s)

/-- Python `sep.join(items)`. -/
def joinWith (sep : String) : List String → String
  | [] => ""
  | [x] => x
  | x :: y :: rest => x ++ sep ++ joinWith sep (y :: rest)

/-- Source `_clean_spaces` (app.py): `re.sub(r"\s+", " ", text).strip()`.
Collapsing whitespace runs to single spaces and stripping the ends is
exactly rejoining the whitespace-split words with single spaces. -/
def cleanSpaces (s : String) : String := joinWith " " (pyWords s)

/-- Source `_n_grams` (app.py): the **set** of windows
`tuple(tokens[i:i+n]) for i in range(0, max(0, len(tokens)-n+1))`.
`Int.toNat` realises the `max(0, ·)`; for `n ≤ 0` each Python slice
`tokens[i:i+n]` is empty, which `List.take n.toNat` reproduces. -/
def nGramsF (tokens : List String) (n : Int) : Finset (List String) :=
  ((List.range ((tokens.length : Int) - n + 1).toNat).map
    (fun i => (tokens.drop i).take n.toNat)).toFinset

/-- Source `_sentence_variants` (app.py): the original, then `replace("and","&")`,
then `replace(",","—")`, then (if the sentence ends with a period) the
sentence with the last character dropped (`base[:-1]`). -/
def sentenceVariants (base : String) : List String :=
  let variants := [base, pyReplace base "and" "&", pyReplace base "," "—"]
  if endsWithChar base '.' then variants ++ [String.mk base.data.dropLast] else variants

/-- The body of the per-sentence loop shared by `_avoid_repetition` and by
the inner loop of `_apply_global_guard` (the `for`/`else` in the former
and the `variant_applied` flag in the latter both accept the first
variant whose n-gram set misses `seen`, or skip the sentence):
returns the accepted string (if any) and the updated seen-set. -/
def guardStep (n : Int) (seen : Finset (List String)) (s : String) :
    Option String × Finset (List String) :=
  let grams := nGramsF (pyTokens s) n
  if (grams ∩ seen).Nonempty then
    match (sentenceVariants s).find?
        (fun v => decide (nGramsF (pyTokens v) n ∩ seen = ∅)) with
    | some v => (some v, seen ∪ nGramsF (pyTokens v) n)
    | none => (none, seen)
  else
    (some s, seen ∪ grams)

/-- The loop of `_avoid_repetition` with the seen-set made explicit;
returns the curated list and the final seen-set. -/
def avoidRepetitionAux (n : Int) : List String → Finset (List String) →
    List String × Finset (List String)
  | [], seen => ([], seen)
  | s :: rest, seen =>
    match guardStep n seen s with
    | (some v, seen') =>
      let r := avoidRepetitionAux n rest seen'
      (v :: r.1, r.2)
    | (none, seen') => avoidRepetitionAux n rest seen'

/-- Source `_avoid_repetition` (app.py): seen-set starts empty each call. -/
def avoidRepetition (sentences : List String) (blockNgrams : Int) : List String :=
  (avoidRepetitionAux blockNgrams sentences ∅).1

/-- The beat loop of `_apply_global_guard`: the seen-set is threaded across
groups, and the inner per-sentence loop is the same loop as
`_avoid_repetition`'s (see `guardStep`). -/
def applyGlobalGuardAux (n : Int) : List (List String) → Finset (List String) →
    List (List String) × Finset (List String)
  | [], seen => ([], seen)
  | g :: gs, seen =>
    let cur := avoidRepetitionAux n g seen
    let rest := applyGlobalGuardAux n gs cur.2
    (cur.1 :: rest.1, rest.2)

/-- Source `_apply_global_guard` (app.py): shared seen-set across beats, empty at
the start of the call. -/
def applyGlobalGuard (beatsSentences : List (List String)) (n : Int) :
    List (List String) :=
  (applyGlobalGuardAux n beatsSentences ∅).1

/-- The Repetition Guard as the specification (claim C1) words it: process
candidates in order; if the candidate's n-gram set misses the seen-set,
accept it as-is and add its n-grams; otherwise accept the first variant
whose n-gram set misses the seen-set and add that variant's n-grams;
otherwise omit the sentence. -/
def specFilterGo (N : Int) : List String → Finset (List String) → List String
  | [], _ => []
  | c :: rest, seenSet =>
    let sig := nGramsF (pyTokens c) N
    if sig ∩ seenSet = ∅ then
      c :: specFilterGo N rest (seenSet ∪ sig)
    else
      match (sentenceVariants c).find?
          (fun v => decide (nGramsF (pyTokens v) N ∩ seenSet = ∅)) with
      | some v => v :: specFilterGo N rest (seenSet ∪ nGramsF (pyTokens v) N)
      | none => specFilterGo N rest seenSet

/-- Source `filter_sequence` as the specification describes it. -/
def specFilterSequence (candidates : List String) (N : Int) : List String :=
  specFilterGo N candidates ∅

/-- Source `_n_grams` (bedtime_story_maker.py): the **list** of windows
`[tuple(tokens[i:i+n]) for i in range(max(0, len(tokens)-n+1))]`. -/
def nGramsList (tokens : List String) (n : Int) : List (List String) :=
  (List.range ((tokens.length : Int) - n + 1).toNat).map
    (fun i => (tokens.drop i).take n.toNat)

/-- Python `range(0, stop, step)` for `step ≥ 1`: the multiples of `step`
below `stop`.  (`_unique_ratio` only reaches its loop with `step ≥ 1`;
for `step = 0` Python would raise, and this function returns `[]`.) -/
def pyRangeStep (stop step : Nat) : List Nat :=
  (List.range ((stop + step - 1) / step)).map (· * step)

/-- Source `_unique_ratio` (bedtime_story_maker.py): chunk the token stream by
`window` (the whole stream if `window <= 0`), and return the ratio of the
summed distinct n-gram counts to the summed n-gram position counts,
skipping chunks with no n-grams; `1.0` on empty input or zero total. -/
def uniqueRatio (tokens : List String) (n : Int) (window : Int) : Rat :=
  if tokens = [] then 1
  else
    let w : Nat := if window ≤ 0 then tokens.length else window.toNat
    let chunks := (pyRangeStep tokens.length w).map
      (fun i => (tokens.drop i).take w)
    let acc := chunks.foldl
      (fun (acc : Nat × Nat) chunk =>
        let grams := nGramsList chunk n
        if grams = [] then acc
        else (acc.1 + grams.toFinset.card, acc.2 + grams.length))
      (0, 0)
    if acc.2 = 0 then 1 else (acc.1 : Rat) / (acc.2 : Rat)

/-- Consecutive chunks of size `w`, the last possibly shorter (the
specification's description of the window partition; `w = 0` returns the
stream whole and is never used). -/
def chunksOfGo (w : Nat) : Nat → List α → List (List α)
  | _, [] => []
  | 0, l => [l]
  | fuel + 1, x :: xs =>
    if w = 0 then [x :: xs]
    else (x :: xs).take w :: chunksOfGo w fuel ((x :: xs).drop w)

/-- Consecutive chunks of size `w`, the last possibly shorter; the fuel
of `chunksOfGo` is the input length, an upper bound on the chunk count
for `w ≥ 1`. -/
def chunksOf (w : Nat) (l : List α) : List (List α) := chunksOfGo w l.length l

/-- The chunk partition exactly as claim C5 words it: chunks of size
`window`, the whole stream as one chunk when `window ≤ 0`. -/
def specChunks (tokens : List String) (window : Int) : List (List String) :=
  if window ≤ 0 then [tokens] else chunksOf window.toNat tokens

/-- Total number of n-gram positions over all chunks (a chunk shorter
than `n` contributes zero). -/
def specTotalPositions (tokens : List String) (n : Int) (window : Int) : Nat :=
  ((specChunks tokens window).map
    (fun c => ((c.length : Int) - n + 1).toNat)).sum

/-- Sum over all chunks of the number of distinct n-grams in the chunk. -/
def specUniqueCount (tokens : List String) (n : Int) (window : Int) : Nat :=
  ((specChunks tokens window).map
    (fun c => (nGramsList c n).toFinset.card)).sum

/-- Source `uniqueness_ratio` as claim C5 words it: the ratio of summed distinct
n-gram counts to summed n-gram positions across the chunk partition,
and exactly `1` when the token list is empty or the total is zero. -/
def specUniquenessRatio (tokens : List String) (n : Int) (window : Int) : Rat :=
  if tokens = [] ∨ specTotalPositions tokens n window = 0 then 1
  else (specUniqueCount tokens n window : Rat) / (specTotalPositions tokens n window : Rat)

/-- Source `_unique_ngram_ratio` (app.py): single-window distinct/total ratio at
size `n` over the whole token list, `1.0` when there are no positions. -/
def uniqueNgramRatio (tokens : List String) (n : Int) : Rat :=
  let total : Int := max 0 ((tokens.length : Int) - n + 1)
  if total ≤ 0 then 1
  else
    let seen := ((List.range total.toNat).map
      (fun i => (tokens.drop i).take n.toNat)).toFinset
    (seen.card : Rat) / (total : Rat)

/-- Python `str.format` with keyword arguments, restricted to the simple
`\x7bname\x7d` fields the templates use (no escapes, no format specs,
none occur in the sources): scan the template; on `{` collect the key up
to `}` and substitute its value; a missing key or malformed braces yield
`none` (modelling the `KeyError`/`ValueError` Python raises).  `inKey`
is the scanner mode, `acc` the reversed key being collected. -/
def pyFormatGo (m : List (String × String)) :
    Bool → List Char → List Char → Option (List Char)
  | false, _, [] => some []
  | false, _, c :: r =>
    if c = '{' then pyFormatGo m true [] r
    else if c = '}' then none
    else (pyFormatGo m false [] r).map (c :: ·)
  | true, _, [] => none
  | true, acc, c :: r =>
    if c = '}' then
      match m.lookup (String.mk acc.reverse) with
      | some v => (pyFormatGo m false [] r).map (v.data ++ ·)
      | none => none
    else pyFormatGo m true (c :: acc) r

/-- Source `tpl.format(**m)`. -/
def pyFormat (tpl : String) (m : List (String × String)) : Option String :=
  (pyFormatGo m false [] tpl.data).map String.mk

/-- Source `NAME_BANK["general"]` (app.py). -/
def nameBankGeneral : List String :=
  ["Avery", "Rowan", "Quinn", "Jordan", "Riley", "Morgan", "Casey", "Emerson",
   "Hayden", "Parker", "Sage", "Taylor", "Elliot", "Reese", "Skyler", "Harper",
   "Finley", "Dakota", "Phoenix", "Alex"]

/-- Source `NAME_BANK` (app.py). -/
def nameBank : List (String × List String) :=
  [("general", nameBankGeneral),
   ("fantasy", ["Elowen", "Kael", "Seraphine", "Thorin", "Lyra", "Alaric",
                "Neris", "Isolde", "Corin", "Mira"]),
   ("scifi", ["Nova", "Orion", "Vega", "Cassian", "Zara", "Kepler", "Astra",
              "Juno", "Talon", "Cyra"]),
   ("mystery", ["Marlow", "Sable", "Hollis", "Ellis", "Percy", "Greer",
                "Briar", "Blaine", "Tamsin", "Maven"])]

/-- Source `SETTING_BANK` (app.py). -/
def settingBank : List (String × List (String × String × String)) :=
  [("fantasy",
    [("a mist-laced valley of towering ruins", "age of fractured kingdoms", "enchanted"),
     ("a cliffside city carved from obsidian", "era of quiet rebellions", "brooding")]),
   ("scifi",
    [("a rotating habitat above a blue dwarf star", "post-expansion cycle", "clinical"),
     ("a dust-wreathed outpost on a tidally-locked world", "pre-jump renaissance", "austere")]),
   ("mystery",
    [("a rain-dimmed harbor town of salt and neon", "off-season lull", "sombre"),
     ("a museum wing closed for renovation", "funding drought", "hushed")]),
   ("general",
    [("a quiet suburb stitched by cul-de-sacs", "early autumn", "wistful"),
     ("a sun-warmed seaside village", "late summer", "golden")])]

/-- Source `THEMES` (app.py). -/
def themes : List String :=
  ["the cost of truth", "becoming who you already are", "the kindness of strangers",
   "power and what it asks of us", "promises kept too late"]

/-- Source `DESIRES` (app.py). -/
def desires : List String :=
  ["to bring someone home", "to prove a quiet suspicion", "to keep a fragile promise",
   "to start again without erasing the past", "to protect a small thing that matters"]

/-- Source `STAKE_PATTERNS` (app.py). -/
def stakePatterns : List String :=
  ["If they fail, \x7bconsequence\x7d.",
   "Failure means \x7bconsequence\x7d—and no one else will try again.",
   "Succeed, and \x7bsilver\x7d; fail, and \x7bconsequence\x7d."]

/-- Source `STAKE_FILLERS["consequence"]` (app.py). -/
def stakeConsequences : List String :=
  ["someone gentle will be broken",
   "the place they love will be swallowed by indifference",
   "a quiet cruelty will become normal",
   "their name will be remembered for the wrong reason"]

/-- Source `STAKE_FILLERS["silver"]` (app.py). -/
def stakeSilvers : List String :=
  ["they might finally sleep without rehearsing the past",
   "the ones who doubted will share their warmth",
   "they will get a sliver of their old life back"]

/-- Source `TRAITS` (app.py). -/
def traits : List String :=
  ["soft-spoken but relentless", "a careful observer with a crooked grin",
   "unlucky, and done apologizing", "methodical until it matters, then reckless",
   "haunted by a promise they meant to keep"]

/-- Source `ANTAGONIST_TRAITS` (app.py). -/
def antagonistTraits : List String :=
  ["smiles without showing teeth", "collects debts that were never owed",
   "believes mercy is a kind of theft", "tidies every room they enter"]

/-- Source `ALLY_TRAITS` (app.py). -/
def allyTraits : List String :=
  ["laughs too loud at the wrong time", "keeps lists inside of lists",
   "says maybe when they mean yes"]

/-- Source `TONE_TO_STYLE` (app.py): adjectives and cadence per tone. -/
def toneStyles : List (String × (List String × String)) :=
  [("warm", (["warm", "tender", "golden"], "flowing")),
   ("dark", (["dim", "hushed", "severe"], "staccato")),
   ("whimsical", (["unruly", "lilting", "bright"], "playful")),
   ("serious", (["measured", "quiet", "precise"], "measured"))]

/-- Source `TONE_TO_STYLE.get(tone, TONE_TO_STYLE["serious"])`. -/
def toneToStyle (tone : String) : List String × String :=
  (toneStyles.lookup tone).getD (["measured", "quiet", "precise"], "measured")

/-- The per-cadence opener lists of `_style_sentence` (app.py); the dict
is indexed directly and every cadence produced by `toneToStyle` is a
key, so the `getD []` default is never used. -/
def openersFor (cadence : String) : List String :=
  (([("flowing", ["And", "Sometimes", "Often", "Meanwhile"]),
     ("staccato", ["Then", "Now", "After", "Before"]),
     ("playful", ["Suppose", "Maybe", "Consider", "Imagine"]),
     ("measured", ["In time", "At last", "Eventually", "In truth"])] :
      List (String × List String)).lookup cadence).getD []

/-- Source `BEAT_ORDER` (app.py). -/
def beatOrder : List String :=
  ["Hook", "Inciting Incident", "Debate", "Midpoint", "Bad Turn", "Climax", "Resolution"]

/-- Source `detail_prefixes` (app.py, `expand_beat`). -/
def detailPrefixes : List String :=
  ["A detail:", "One small detail:", "A stray detail:", "Noted in passing:",
   "A tiny detail:"]

/-- Source `place_intros` (app.py, `expand_beat`). -/
def placeIntros : List String :=
  ["The place feels", "This place feels", "The setting seems", "Here, it feels",
   "Around them it feels"]

/-- Source `choose_verbs` (app.py, `expand_beat`). -/
def chooseVerbs : List String :=
  ["chooses", "opts for", "decides on", "elects", "picks"]

/-- Source `ally_suggests` (app.py, `expand_beat`). -/
def allySuggests : List String :=
  ["suggests", "offers", "proposes", "whispers", "insists"]

/-- Source `templates` (app.py, `expand_beat`). -/
def beatTemplates : List String :=
  ["\x7bwho\x7d notices \x7bchange\x7d and weighs \x7bcost\x7d.",
   "\x7bwho\x7d recalls \x7bmemory\x7d while \x7baction\x7d.",
   "\x7bally\x7d \x7bally_verb\x7d \x7bsuggestion\x7d; it sounds \x7badverb\x7d \x7bfeeling\x7d.",
   "\x7bwho\x7d \x7bchoose_verb\x7d \x7bchoice\x7d despite \x7brisk\x7d.",
   "\x7bdetail_prefix\x7d \x7bdetail\x7d.",
   "\x7bplace_intro\x7d \x7bplace_feel\x7d, like \x7bsimile\x7d."]

/-- The `change` filler bank (app.py, `expand_beat`). -/
def bankChange : List String :=
  ["a light that should be off", "a door that never locked",
   "footprints where there was dust", "a voice that remembers their name"]

/-- The `cost` filler bank. -/
def bankCost : List String :=
  ["the weight of their promise", "what it might make them become",
   "how it will mark their friends", "the life that will not return"]

/-- The `memory` filler bank. -/
def bankMemory : List String :=
  ["a half-finished letter", "a shoreline at dusk", "an unfinished song",
   "a quiet apology"]

/-- The `action` filler bank. -/
def bankAction : List String :=
  ["sorting old tools", "following a map of rumors", "listening at the vents",
   "reading margins in a borrowed book"]

/-- The `suggestion` filler bank. -/
def bankSuggestion : List String :=
  ["asking for help", "waiting one more night", "trading a secret",
   "turning back now"]

/-- The `adverb` filler bank. -/
def bankAdverb : List String := ["strangely", "more", "less", "unexpectedly"]

/-- The `feeling` filler bank. -/
def bankFeeling : List String := ["right", "wrong", "necessary", "dangerous"]

/-- The `choice` filler bank. -/
def bankChoice : List String :=
  ["to tell the truth", "to trust a stranger", "to hide the proof", "to go alone"]

/-- The `risk` filler bank. -/
def bankRisk : List String :=
  ["their name becoming a rumor", "losing the last photograph",
   "someone learning what they fear", "never being believed"]

/-- The `detail` filler bank. -/
def bankDetail : List String :=
  ["chalk dust on a windowsill", "a key with teeth filed flat",
   "knuckles inked with directions", "a calendar missing its days"]

/-- The `place_feel` filler bank. -/
def bankPlaceFeel : List String := ["tilted", "watchful", "hollow", "expectant"]

/-- The `simile` filler bank. -/
def bankSimile : List String :=
  ["a room holding its breath", "a song missing its middle",
   "a tide waiting under ice", "an elevator between floors"]

/-- An abstract model of the pure runtime primitives the generator uses:
`init` is `random.Random(seed)` (any deterministic seeding of the
Mersenne Twister, state abstracted to `Nat`), `next` one raw draw used
for `rng.choice`, `coin` the outcome of `rng.random() < 0.5`, `hex6` is
`sha256(·).hexdigest()[:6]`, and `round4` is `round(·, 4)`.  Every
theorem below is uniform in this model, so it holds in particular for
CPython's concrete implementations of these pure functions. -/
structure EnvModel where
  init : Int → Nat
  next : Nat → Nat × Nat
  coin : Nat → Bool × Nat
  hex6 : String → String
  round4 : Rat → Rat

/-- Source `rng.choice(items)`: one draw, reduced modulo the list length (CPython's
`_randbelow` always yields an in-range index; every call site passes a
non-empty list, so the default is never produced). -/
def pyChoiceD (M : EnvModel) (st : Nat) (items : List α) (dflt : α) : α × Nat :=
  let r := M.next st
  (items.getD (r.1 % items.length) dflt, r.2)

/-- Source `rng.choice` on string lists. -/
def pyChoice (M : EnvModel) (st : Nat) (items : List String) : String × Nat :=
  pyChoiceD M st items ""

/-- Source `_rng(seed)` (app.py): seed from `os.urandom` when `seed is None`,
modelled by the entropy stream `urnd` and a draw counter `k`. -/
def rngInit (M : EnvModel) (urnd : Nat → Int) (k : Nat) (seed : Option Int) :
    Nat × Nat :=
  match seed with
  | none => (M.init (urnd k), k + 1)
  | some s => (M.init s, k)

/-- The module-global `plan_length_cache` dict (app.py), which only ever
holds the keys `"length"` and `"seed"`. -/
structure Cache where
  length : Option String
  seed : Option Int
deriving DecidableEq

/-- Source `StoryConfig` (app.py). -/
structure StoryConfig where
  genre : String
  tone : String
  length : String
  seed : Option Int
  titleHint : Option String
  enableLlm : Bool
deriving DecidableEq

/-- Source `Character` (app.py). -/
structure Character where
  name : String
  role : String
  trait : String
deriving DecidableEq

/-- Source `StoryWorld` (app.py). -/
structure StoryWorld where
  setting : String
  era : String
  mood : String
deriving DecidableEq

/-- Source `StoryPlan` (app.py). -/
structure StoryPlan where
  title : String
  protagonist : Character
  antagonist : Character
  ally : Character
  world : StoryWorld
  theme : String
  stakes : String
  objectOfDesire : String
  beats : List String
deriving DecidableEq

/-- Source `pick_name_by_genre` (app.py): `NAME_BANK.get(genre, []) + NAME_BANK["general"]`. -/
def pickNameByGenre (M : EnvModel) (st : Nat) (genre : String) : String × Nat :=
  pyChoice M st ((nameBank.lookup genre).getD [] ++ nameBankGeneral)

/-- Python `str.title()`: uppercase each cased character that follows a
non-cased one, lowercase the rest (`isAlpha` is "cased" for the ASCII
data in use).  `prevAlpha` says whether the previous character was cased. -/
def pyTitleCaseGo : Bool → List Char → List Char
  | _, [] => []
  | prevAlpha, c :: r =>
    (if c.isAlpha then (if prevAlpha then c.toLower else c.toUpper) else c)
      :: pyTitleCaseGo c.isAlpha r

/-- Python `s.title()`. -/
def pyTitleCase (s : String) : String := String.mk (pyTitleCaseGo false s.data)

/-- Source `plan_story` (app.py): one fresh rng, draws in source order; the
`stakes` template formatting models `str.format`'s possible `KeyError`
(in fact both keys are always supplied, see `planStory_total`). -/
def planStory (M : EnvModel) (urnd : Nat → Int) (k : Nat) (cfg : StoryConfig) :
    Option (StoryPlan × Nat) :=
  let r0 := rngInit M urnd k cfg.seed
  let st := r0.1
  let genreKey := if (settingBank.lookup cfg.genre).isSome then cfg.genre else "general"
  let p1 := pyChoiceD M st ((settingBank.lookup genreKey).getD []) ("", "", "")
  let setting3 := p1.1
  let p2 := pickNameByGenre M p1.2 cfg.genre
  let p3 := pyChoice M p2.2 traits
  let p4 := pickNameByGenre M p3.2 cfg.genre
  let p5 := pyChoice M p4.2 antagonistTraits
  let p6 := pickNameByGenre M p5.2 cfg.genre
  let p7 := pyChoice M p6.2 allyTraits
  let world : StoryWorld := ⟨setting3.1, setting3.2.1, setting3.2.2⟩
  let p8 := pyChoice M p7.2 themes
  let p9 := pyChoice M p8.2 desires
  let p10 := pyChoice M p9.2 stakePatterns
  let p11 := pyChoice M p10.2 stakeConsequences
  let p12 := pyChoice M p11.2 stakeSilvers
  match pyFormat p10.1 [("consequence", p11.1), ("silver", p12.1)] with
  | none => none
  | some stakes =>
    -- `title_seed = config.title_hint or theme`: Python `or` also rejects ""
    let titleSeed := match cfg.titleHint with
      | some h => if h = "" then p8.1 else h
      | none => p8.1
    let hashed := M.hex6 (titleSeed ++ p2.1 ++ world.setting)
    let title := pyTitleCase titleSeed ++ " (" ++ hashed ++ ")"
    some (⟨title, ⟨p2.1, "protagonist", p3.1⟩, ⟨p4.1, "antagonist", p5.1⟩,
           ⟨p6.1, "ally", p7.1⟩, world, p8.1, stakes, p9.1, []⟩, r0.2)

/-- The `base_prompts` dict of `expand_beat` (app.py), built from the plan
by f-string interpolation. -/
def basePrompts (plan : StoryPlan) : List (String × String) :=
  [("Hook",
    "Introduce " ++ plan.protagonist.name ++ ", " ++ plan.protagonist.trait ++
    ", in " ++ plan.world.setting ++ " during " ++ plan.world.era ++
    ". They want " ++ plan.objectOfDesire ++ "."),
   ("Inciting Incident",
    "Something disrupts the ordinary: " ++ plan.antagonist.name ++ ", who " ++
    plan.antagonist.trait ++ ", interferes."),
   ("Debate",
    plan.protagonist.name ++ " doubts the path forward. " ++ plan.ally.name ++
    ", " ++ plan.ally.trait ++ ", offers help."),
   ("Midpoint",
    "A reveal reframes the goal about " ++ plan.theme ++
    ". The cost emerges: " ++ plan.stakes),
   ("Bad Turn",
    "A setback. " ++ plan.antagonist.name ++ " gains advantage in " ++
    plan.world.mood ++ " circumstances."),
   ("Climax",
    "A decisive choice by " ++ plan.protagonist.name ++ " in the face of " ++
    plan.antagonist.name ++ "."),
   ("Resolution",
    "Aftermath in " ++ plan.world.setting ++
    ". The world tilts; threads resolve, not neatly, but honestly.")]

/-- The default used when a beat name is not in `base_prompts`. -/
def defaultBeatPrompt : String := "A moment advances the story."

/-- Source `target_sentences.get(plan_length_cache.get("length", "medium"), 5)`. -/
def targetSentencesFor (lengthKey : String) : Nat :=
  ((([("short", 3), ("medium", 5), ("long", 7)] :
      List (String × Nat)).lookup lengthKey).getD 5)

/-- Python `sentence[0].upper() + sentence[1:]` (the input is never empty
at the call site; Python would raise `IndexError` on `""`). -/
def capitalizeFirst (s : String) : String :=
  match s.data with
  | [] => s
  | c :: r => String.mk (c.toUpper :: r)

/-- Source `_style_sentence` (app.py).  Draw order follows Python evaluation:
the inner `rng.choice(openers)` runs before the outer binary choice, the
inner adjective choice before its outer binary choice, and the
`rng.random() < 0.5` coin is only drawn when `adjective` is truthy
(Python `and` short-circuits). -/
def styleSentence (M : EnvModel) (text tone : String) (st : Nat) : String × Nat :=
  let style := toneToStyle tone
  let q1 := pyChoice M st (openersFor style.2)
  let q2 := pyChoice M q1.2 ["", q1.1 ++ ", "]
  let q3 := pyChoice M q2.2 style.1
  let q4 := pyChoice M q3.2 ["", q3.1]
  let adjective := q4.1
  let r :=
    if adjective ≠ "" then
      let c := M.coin q4.2
      ((if c.1 then pyReplaceFirst text " " (" " ++ adjective ++ " ") else text), c.2)
    else (text, q4.2)
  let sentence := q2.1 ++ r.1
  let sentence := capitalizeFirst sentence
  let sentence :=
    if endsWithChar sentence '.' ∨ endsWithChar sentence '!' ∨ endsWithChar sentence '?'
    then sentence else sentence ++ "."
  (cleanSpaces sentence, r.2)

/-- The drawn `fill_base` values of `expand_beat` (who/ally come from the
plan and are not drawn). -/
structure FillBase where
  change : String
  cost : String
  mem : String
  act : String
  sugg : String
  adv : String
  feel : String
  cho : String
  risk : String
  det : String
  pfeel : String
  sim : String

/-- The `fill` dict passed to `tpl.format(**fill)` in `expand_beat`. -/
def mkFill (plan : StoryPlan) (fb : FillBase) (dpfx pin cv av : String) :
    List (String × String) :=
  [("who", plan.protagonist.name), ("ally", plan.ally.name),
   ("change", fb.change), ("cost", fb.cost), ("memory", fb.mem),
   ("action", fb.act), ("suggestion", fb.sugg), ("adverb", fb.adv),
   ("feeling", fb.feel), ("choice", fb.cho), ("risk", fb.risk),
   ("detail", fb.det), ("place_feel", fb.pfeel), ("simile", fb.sim),
   ("detail_prefix", dpfx), ("place_intro", pin), ("choose_verb", cv),
   ("ally_verb", av)]

/-- The `while len(sentences) < n_sent` loop of `expand_beat`: each pass
draws a template, the four per-iteration fillers, formats, styles and
appends; the count of passes is the fuel (the loop appends exactly one
sentence per pass). -/
def expandBeatGo (M : EnvModel) (plan : StoryPlan) (tone : String) (fb : FillBase) :
    Nat → Nat → Option (List String × Nat)
  | 0, st => some ([], st)
  | Nat.succ kk, st =>
    let t1 := pyChoiceD M st beatTemplates ""
    let t2 := pyChoice M t1.2 detailPrefixes
    let t3 := pyChoice M t2.2 placeIntros
    let t4 := pyChoice M t3.2 chooseVerbs
    let t5 := pyChoice M t4.2 allySuggests
    match pyFormat t1.1 (mkFill plan fb t2.1 t3.1 t4.1 t5.1) with
    | none => none
    | some s =>
      let styled := styleSentence M s tone t5.2
      match expandBeatGo M plan tone fb kk styled.2 with
      | none => none
      | some (rest, stF) => some (styled.1 :: rest, stF)

/-- Source `expand_beat` (app.py), offline path.  `TRANSFORMERS_AVAILABLE` is
false in the modeled environment (no `USE_TRANSFORMERS`), so the
`use_llm` branch is never taken.  The twelve `fill_base` fillers are
drawn first (dict-literal evaluation order), then the anchor sentence is
styled from the base prompt, then the loop fills up to the target count,
and the per-beat guard runs at n-gram size 4. -/
def expandBeat (M : EnvModel) (beatName : String) (plan : StoryPlan)
    (tone : String) (st : Nat) (cache : Cache) : Option (List String) :=
  let nSent := targetSentencesFor (cache.length.getD "medium")
  let base := ((basePrompts plan).lookup beatName).getD defaultBeatPrompt
  let d1 := pyChoice M st bankChange
  let d2 := pyChoice M d1.2 bankCost
  let d3 := pyChoice M d2.2 bankMemory
  let d4 := pyChoice M d3.2 bankAction
  let d5 := pyChoice M d4.2 bankSuggestion
  let d6 := pyChoice M d5.2 bankAdverb
  let d7 := pyChoice M d6.2 bankFeeling
  let d8 := pyChoice M d7.2 bankChoice
  let d9 := pyChoice M d8.2 bankRisk
  let d10 := pyChoice M d9.2 bankDetail
  let d11 := pyChoice M d10.2 bankPlaceFeel
  let d12 := pyChoice M d11.2 bankSimile
  let fb : FillBase := ⟨d1.1, d2.1, d3.1, d4.1, d5.1, d6.1, d7.1, d8.1, d9.1,
                        d10.1, d11.1, d12.1⟩
  let anchor := styleSentence M base tone d12.2
  match expandBeatGo M plan tone fb (nSent - 1) anchor.2 with
  | none => none
  | some (rest, _) => some (avoidRepetition (anchor.1 :: rest) 4)

/-- The per-beat loop of `generate_story`: each beat gets a fresh
`_rng(config.seed)` (threading the entropy counter `k`) and the beat's
sentence list is collected; a beat failure aborts the remainder. -/
def expandBeats (M : EnvModel) (urnd : Nat → Int) (seed : Option Int)
    (plan : StoryPlan) (tone : String) (cache : Cache) :
    List String → Nat → Option (List (List String) × Nat)
  | [], k => some ([], k)
  | b :: bs, k =>
    let r := rngInit M urnd k seed
    match expandBeat M b plan tone r.1 cache with
    | none => none
    | some sents =>
      match expandBeats M urnd seed plan tone cache bs r.2 with
      | none => none
      | some (rest, kF) => some (sents :: rest, kF)

/-- Source `re.findall(r"[a-z']+", ·)`'s character class. -/
def isTokChar (c : Char) : Bool := decide (('a' ≤ c ∧ c ≤ 'z') ∨ c = '\'')

/-- Maximal-run extraction for `re.findall(r"[a-z']+", s)`; `cur` is the
reversed current run. -/
def findTokensGo : List Char → List Char → List String
  | [], cur => if cur = [] then [] else [String.mk cur.reverse]
  | c :: cs, cur =>
    if isTokChar c then findTokensGo cs (c :: cur)
    else if cur = [] then findTokensGo cs []
    else String.mk cur.reverse :: findTokensGo cs []

/-- Source `re.findall(r"[a-z']+", s)`. -/
def findTokens (s : String) : List String := findTokensGo s.data []

/-- The length-dependent uniqueness threshold of `generate_story`:
`{"short": 0.86, "medium": 0.9, "long": 0.92}.get(length_key, 0.9)`. -/
def pyThreshold (lengthKey : String) : Rat :=
  ((([("short", (86 : Rat) / 100), ("medium", (9 : Rat) / 10),
      ("long", (92 : Rat) / 100)] : List (String × Rat)).lookup lengthKey).getD
    ((9 : Rat) / 10))

/-- The `meta` dict of `generate_story` (app.py); the three character
dicts are kept as `Character` values and the timestamp is the `ts`
input with the `"Z"` suffix the source appends. -/
structure StoryMeta where
  title : String
  genre : String
  tone : String
  length : String
  seed : Option Int
  theme : String
  stakes : String
  world : StoryWorld
  protagonist : Character
  antagonist : Character
  ally : Character
  beats : List String
  antiRepetitionPassed : Bool
  uniquenessScore : Rat
  timestamp : String
deriving DecidableEq

/-- The return dict of `generate_story`. -/
structure StoryOutput where
  meta : StoryMeta
  text : String
  paragraphs : List String
deriving DecidableEq

/-- Source `generate_story` (app.py).  Inputs beyond the config: the runtime
model `M`, the `os.urandom` entropy stream `urnd` (consulted only when
the seed is `None`), the wall-clock `ts` (`datetime.utcnow().isoformat()`),
and the incoming global `plan_length_cache`; the updated cache is
returned alongside the result, and `none` models an uncaught exception
(in fact impossible, see `generateStory_total`). -/
def generateStory (M : EnvModel) (urnd : Nat → Int) (ts : String)
    (cfg : StoryConfig) (cacheIn : Cache) : Option StoryOutput × Cache :=
  let r0 := rngInit M urnd 0 cfg.seed  -- `rng = _rng(config.seed)`, bound but unused
  match planStory M urnd r0.2 cfg with
  | none => (none, cacheIn)
  | some (plan, k) =>
    -- `plan_length_cache["length"] = config.length; ["seed"] = config.seed or 0`
    -- (Python `or` maps the falsy seeds `None` and `0` both to `0`)
    let cache : Cache := ⟨some cfg.length, some (cfg.seed.getD 0)⟩
    match expandBeats M urnd cfg.seed plan cfg.tone cache beatOrder k with
    | none => (none, cache)
    | some (beatSentences, _) =>
      let guarded := applyGlobalGuard beatSentences 4
      let paragraphs := guarded.map (joinWith " ")
      let storyText := joinWith "\n\n" paragraphs
      let allTokens := findTokens (pyLower storyText)
      let uniq4 := uniqueNgramRatio allTokens 4
      (some ⟨⟨plan.title, cfg.genre, cfg.tone, cfg.length, cfg.seed, plan.theme,
              plan.stakes, plan.world, plan.protagonist, plan.antagonist,
              plan.ally, beatOrder, decide (pyThreshold cfg.length ≤ uniq4),
              M.round4 uniq4, ts ++ "Z"⟩,
             storyText, paragraphs⟩,
       cache)

/-- Erase the only call-time-dependent output field (`meta.timestamp`). -/
def stripTimestamp (o : StoryOutput) : StoryOutput :=
  ⟨{o.meta with timestamp := ""}, o.text, o.paragraphs⟩

/-- Source `ContentEngine._choose` (bedtime_story_maker.py):
`rnd.choice(items) if items else ''` — no draw on an empty list. -/
def contentChoose (M : EnvModel) (st : Nat) (items : List String) : String × Nat :=
  if items = [] then ("", st) else pyChoice M st items

/-- The per-beat body of `ContentEngine.generate` (bedtime_story_maker.py,
the loop `for b in beats`): look the beat up in the theme's template map
(default `[]`), pick and format a template, clamp the word count by the
reading level (Python `int(...)` truncation on a non-negative product is
`Rat.floor`; the float product is modelled exactly as a rational), and
ensure a trailing period.  `none` models the `KeyError` `str.format`
raises on a missing placeholder. -/
def contentBeatPick (M : EnvModel) (tmap : List (String × List String))
    (beat : String) (placeholders : List (String × String)) (rlevel : Rat)
    (st : Nat) : Option (String × Nat) :=
  let choices := (tmap.lookup beat).getD []
  let c0 := contentChoose M st choices
  match pyFormat c0.1 placeholders with
  | none => none
  | some pick =>
    let words := pyWords pick
    let factor : Rat :=
      if rlevel < 1 then 85 / 100 else 1 + (min (1 / 2) (rlevel - 1)) * (1 / 2)
    let maxWords := max 6 (((words.length : Rat) * factor).floor.toNat)
    let pick := joinWith " " (words.take maxWords)
    let pick := if endsWithChar pick '.' then pick else pick ++ "."
    some (pick, c0.2)

/-- The `"Magical Forest"` theme templates of `EMBEDDED_CONTENT_JSON`
(`themes_en`, bedtime_story_maker.py). -/
def enMagicalForest : List (String × List String) :=
  [("intro",
    ["In a magical forest, where \x7badjective\x7d trees whispered secrets, lived a young \x7bcharacter_type\x7d named \x7bname\x7d.",
     "Deep in the Whispering Woods, \x7bname\x7d the \x7badjective\x7d \x7bcharacter_type\x7d found a hidden path."]),
   ("middle",
    ["A talking \x7bcreature\x7d appeared, holding a mysterious \x7bobject\x7d.",
     "\x7bname\x7d followed a sparkle trail to an ancient door."]),
   ("climax",
    ["The \x7bobject\x7d could save the forest from silence.",
     "Behind the door, \x7bname\x7d found the source of the woods and made a brave choice."]),
   ("moral",
    ["\x7bname\x7d learned that gentle choices make real strength.",
     "Even the smallest person can help a great place heal."])]

/-- The placeholder map `ContentEngine.generate` builds, at the self-test
parameters with concrete filler picks. -/
def placeholders0 : List (String × String) :=
  [("name", "Alex"), ("topic", "A Forest Walk"), ("age", "6"),
   ("adjective", "gentle"), ("creature", "fox"), ("object", "lantern"),
   ("character_type", "child")]

/-- A trivial concrete instance of the runtime model, used to evaluate the
pipeline at closed inputs (any instance works; the theorems are uniform
in the model). -/
def trivModel : EnvModel :=
  ⟨fun i => i.natAbs, fun s => (s, s + 1), fun s => (decide (s % 2 = 0), s + 1),
   fun _ => "0f61ab", fun q => q⟩

/-- A constant entropy stream (never consulted when the seed is explicit). -/
def urnd0 : Nat → Int := fun _ => 0

/-- A concrete fresh cache (empty module-global dict). -/
def cache0 : Cache := ⟨none, none⟩

/-- A concrete cache as `generate_story` leaves it after a "short" run. -/
def cacheShort : Cache := ⟨some "short", some 42⟩

/-- A concrete explicit-seed configuration. -/
def cfg0 : StoryConfig := ⟨"general", "serious", "short", some 42, none, false⟩

/-- The union of the n-gram signatures of a list of sentences (the
n-grams "already emitted" after accepting the list). -/
def outGrams (n : Int) (l : List String) : Finset (List String) :=
  l.foldr (fun a acc => nGramsF (pyTokens a) n ∪ acc) ∅

/-- A concrete story plan for closed evaluations. -/
def plan0 : StoryPlan :=
  ⟨"The Cost Of Truth (0f61ab)", ⟨"Avery", "protagonist", "soft-spoken but relentless"⟩,
   ⟨"Rowan", "antagonist", "smiles without showing teeth"⟩,
   ⟨"Quinn", "ally", "says maybe when they mean yes"⟩,
   ⟨"a quiet suburb stitched by cul-de-sacs", "early autumn", "wistful"⟩,
   "the cost of truth", "If they fail, someone gentle will be broken.",
   "to bring someone home", []⟩

/-! ## Theorems: the Repetition Guard (claims C1, C6, C7, C10) -/

/-- The original sentence heads its own variant list. -/
theorem mem_sentenceVariants_self (s : String) : s ∈ sentenceVariants s := by
  unfold sentenceVariants
  split <;> simp

/-- One guard step either accepts a variant of the candidate whose n-gram
signature misses the seen-set (adding that signature), or skips the
candidate leaving the seen-set unchanged. -/
theorem guardStep_cases (n : Int) (seen : Finset (List String)) (s : String) :
    (∃ v, guardStep n seen s = (some v, seen ∪ nGramsF (pyTokens v) n) ∧
      v ∈ sentenceVariants s ∧ nGramsF (pyTokens v) n ∩ seen = ∅) ∨
    guardStep n seen s = (none, seen) := by
  unfold guardStep
  by_cases h : (nGramsF (pyTokens s) n ∩ seen).Nonempty
  · simp only [h, if_true]
    cases hf : (sentenceVariants s).find?
        (fun v => decide (nGramsF (pyTokens v) n ∩ seen = ∅)) with
    | none => right; rfl
    | some v =>
      left
      refine ⟨v, rfl, List.mem_of_find?_eq_some hf, ?_⟩
      have := List.find?_some hf
      exact of_decide_eq_true this
  · simp only [h, if_false]
    left
    refine ⟨s, rfl, mem_sentenceVariants_self s, ?_⟩
    exact Finset.not_nonempty_iff_eq_empty.mp h

/-- When the candidate's signature misses the seen-set, the step accepts
it verbatim. -/
theorem guardStep_clean (n : Int) (seen : Finset (List String)) (s : String)
    (h : nGramsF (pyTokens s) n ∩ seen = ∅) :
    guardStep n seen s = (some s, seen ∪ nGramsF (pyTokens s) n) := by
  unfold guardStep
  have h' : ¬ (nGramsF (pyTokens s) n ∩ seen).Nonempty := by
    rw [h]; exact Finset.not_nonempty_empty
  simp only [h', if_false]

/-- The main invariant of the `_avoid_repetition` loop: the final seen-set
is the initial one plus exactly the signatures of the accepted output;
every accepted sentence's signature misses the initial seen-set; the
accepted sentences are pairwise n-gram disjoint; and the output is,
element by element and in order, a variant of a sublist of the input. -/
theorem avoidAux_spec (n : Int) :
    ∀ (l : List String) (seen : Finset (List String)),
    (avoidRepetitionAux n l seen).2 = seen ∪ outGrams n (avoidRepetitionAux n l seen).1
    ∧ (∀ a ∈ (avoidRepetitionAux n l seen).1, nGramsF (pyTokens a) n ∩ seen = ∅)
    ∧ List.Pairwise (fun a b => nGramsF (pyTokens a) n ∩ nGramsF (pyTokens b) n = ∅)
        (avoidRepetitionAux n l seen).1
    ∧ ∃ sub : List String, sub.Sublist l ∧
        List.Forall₂ (fun v s => v ∈ sentenceVariants s)
          (avoidRepetitionAux n l seen).1 sub := by
  intro l
  induction l with
  | nil =>
    intro seen
    refine ⟨by simp [avoidRepetitionAux, outGrams], by simp [avoidRepetitionAux],
      by simp [avoidRepetitionAux], [], List.Sublist.refl _, by simp [avoidRepetitionAux]⟩
  | cons s rest ih =>
    intro seen
    rcases guardStep_cases n seen s with ⟨v, heq, hmem, hdisj⟩ | heq
    · have hstep : avoidRepetitionAux n (s :: rest) seen =
          ((v :: (avoidRepetitionAux n rest (seen ∪ nGramsF (pyTokens v) n)).1),
           (avoidRepetitionAux n rest (seen ∪ nGramsF (pyTokens v) n)).2) := by
        simp only [avoidRepetitionAux]
        rw [heq]
      obtain ⟨iha, ihb, ihc, sub, hsub, hfa⟩ := ih (seen ∪ nGramsF (pyTokens v) n)
      rw [hstep]
      have hsubsetSeen : ∀ a ∈ (avoidRepetitionAux n rest (seen ∪ nGramsF (pyTokens v) n)).1,
          nGramsF (pyTokens a) n ∩ seen = ∅ := by
        intro a ha
        have h1 := ihb a ha
        have : nGramsF (pyTokens a) n ∩ seen ⊆
            nGramsF (pyTokens a) n ∩ (seen ∪ nGramsF (pyTokens v) n) :=
          Finset.inter_subset_inter (Finset.Subset.refl _) Finset.subset_union_left
        rw [h1] at this
        exact Finset.subset_empty.mp this
      have hdisjV : ∀ a ∈ (avoidRepetitionAux n rest (seen ∪ nGramsF (pyTokens v) n)).1,
          nGramsF (pyTokens v) n ∩ nGramsF (pyTokens a) n = ∅ := by
        intro a ha
        have h1 := ihb a ha
        have : nGramsF (pyTokens a) n ∩ nGramsF (pyTokens v) n ⊆
            nGramsF (pyTokens a) n ∩ (seen ∪ nGramsF (pyTokens v) n) :=
          Finset.inter_subset_inter (Finset.Subset.refl _) Finset.subset_union_right
        rw [h1] at this
        rw [Finset.inter_comm]
        exact Finset.subset_empty.mp this
      refine ⟨?_, ?_, ?_, s :: sub, hsub.cons₂ s, List.Forall₂.cons hmem hfa⟩
      · rw [iha]
        simp only [outGrams, List.foldr_cons]
        rw [Finset.union_assoc]
      · intro a ha
        rcases List.mem_cons.mp ha with rfl | ha'
        · exact hdisj
        · exact hsubsetSeen a ha'
      · exact List.Pairwise.cons hdisjV ihc
    · have hstep : avoidRepetitionAux n (s :: rest) seen = avoidRepetitionAux n rest seen := by
        show (match guardStep n seen s with
          | (some v, seen') =>
            ((v :: (avoidRepetitionAux n rest seen').1), (avoidRepetitionAux n rest seen').2)
          | (none, seen') => avoidRepetitionAux n rest seen') = _
        rw [heq]
      obtain ⟨iha, ihb, ihc, sub, hsub, hfa⟩ := ih seen
      rw [hstep]
      exact ⟨iha, ihb, ihc, sub, hsub.cons s, hfa⟩

/-- The seen-set never loses elements across one guard step. -/
theorem guardStep_subset (n : Int) (seen : Finset (List String)) (s : String) :
    seen ⊆ (guardStep n seen s).2 := by
  rcases guardStep_cases n seen s with ⟨v, heq, _, _⟩ | heq <;> rw [heq] <;>
    exact Finset.subset_union_left

/-- The seen-set never loses elements across a whole `_avoid_repetition`
pass. -/
theorem avoidAux_subset (n : Int) (l : List String) (seen : Finset (List String)) :
    seen ⊆ (avoidRepetitionAux n l seen).2 := by
  have h := (avoidAux_spec n l seen).1
  rw [h]
  exact Finset.subset_union_left

/-- The seen-set never loses elements across a whole `_apply_global_guard`
pass. -/
theorem globalAux_subset (n : Int) :
    ∀ (gs : List (List String)) (seen : Finset (List String)),
    seen ⊆ (applyGlobalGuardAux n gs seen).2 := by
  intro gs
  induction gs with
  | nil => intro seen; exact Finset.Subset.refl _
  | cons g rest ih =>
    intro seen
    exact (avoidAux_subset n g seen).trans (ih _)

/-- A list of sentences that is pairwise disjoint and misses the seen-set
is passed through unchanged, with the seen-set growing by exactly its
signatures. -/
theorem avoidAux_of_clean (n : Int) :
    ∀ (l : List String) (seen : Finset (List String)),
    (∀ a ∈ l, nGramsF (pyTokens a) n ∩ seen = ∅) →
    List.Pairwise (fun a b => nGramsF (pyTokens a) n ∩ nGramsF (pyTokens b) n = ∅) l →
    avoidRepetitionAux n l seen = (l, seen ∪ outGrams n l) := by
  intro l
  induction l with
  | nil =>
    intro seen _ _
    simp [avoidRepetitionAux, outGrams]
  | cons s rest ih =>
    intro seen hclean hpw
    have hs : nGramsF (pyTokens s) n ∩ seen = ∅ := hclean s (List.mem_cons_self s rest)
    have hstep : avoidRepetitionAux n (s :: rest) seen =
        ((s :: (avoidRepetitionAux n rest (seen ∪ nGramsF (pyTokens s) n)).1),
         (avoidRepetitionAux n rest (seen ∪ nGramsF (pyTokens s) n)).2) := by
      simp only [avoidRepetitionAux]
      rw [guardStep_clean n seen s hs]
    have hclean' : ∀ a ∈ rest, nGramsF (pyTokens a) n ∩ (seen ∪ nGramsF (pyTokens s) n) = ∅ := by
      intro a ha
      rw [Finset.inter_union_distrib_left, hclean a (List.mem_cons_of_mem s ha)]
      have := (List.pairwise_cons.mp hpw).1 a ha
      rw [Finset.inter_comm] at this
      rw [this]
      simp
    have ihr := ih (seen ∪ nGramsF (pyTokens s) n) hclean' (List.pairwise_cons.mp hpw).2
    rw [hstep, ihr]
    simp only [outGrams, List.foldr_cons]
    rw [Finset.union_assoc]

/-- The translated `_avoid_repetition` loop computes exactly the
specification's `filter_sequence` recursion. -/
theorem avoidAux_eq_specFilterGo (n : Int) :
    ∀ (l : List String) (seen : Finset (List String)),
    (avoidRepetitionAux n l seen).1 = specFilterGo n l seen := by
  intro l
  induction l with
  | nil => intro seen; rfl
  | cons s rest ih =>
    intro seen
    by_cases h : nGramsF (pyTokens s) n ∩ seen = ∅
    · have hstep := guardStep_clean n seen s h
      have h1 : avoidRepetitionAux n (s :: rest) seen =
          ((s :: (avoidRepetitionAux n rest (seen ∪ nGramsF (pyTokens s) n)).1),
           (avoidRepetitionAux n rest (seen ∪ nGramsF (pyTokens s) n)).2) := by
        show (match guardStep n seen s with
          | (some v, seen') =>
            ((v :: (avoidRepetitionAux n rest seen').1), (avoidRepetitionAux n rest seen').2)
          | (none, seen') => avoidRepetitionAux n rest seen') = _
        rw [hstep]
      have h2 : specFilterGo n (s :: rest) seen =
          s :: specFilterGo n rest (seen ∪ nGramsF (pyTokens s) n) := by
        show (if nGramsF (pyTokens s) n ∩ seen = ∅ then
            s :: specFilterGo n rest (seen ∪ nGramsF (pyTokens s) n)
          else
            match (sentenceVariants s).find?
                (fun v => decide (nGramsF (pyTokens v) n ∩ seen = ∅)) with
            | some v => v :: specFilterGo n rest (seen ∪ nGramsF (pyTokens v) n)
            | none => specFilterGo n rest seen) = _
        rw [if_pos h]
      rw [h1, h2, ih]
    · have hne : (nGramsF (pyTokens s) n ∩ seen).Nonempty :=
        Finset.nonempty_iff_ne_empty.mpr h
      have hg : guardStep n seen s =
          (match (sentenceVariants s).find?
              (fun v => decide (nGramsF (pyTokens v) n ∩ seen = ∅)) with
          | some v => (some v, seen ∪ nGramsF (pyTokens v) n)
          | none => (none, seen)) := by
        unfold guardStep
        simp only [hne, if_true]
      have h2 : specFilterGo n (s :: rest) seen =
          (match (sentenceVariants s).find?
              (fun v => decide (nGramsF (pyTokens v) n ∩ seen = ∅)) with
          | some v => v :: specFilterGo n rest (seen ∪ nGramsF (pyTokens v) n)
          | none => specFilterGo n rest seen) := by
        show (if nGramsF (pyTokens s) n ∩ seen = ∅ then
            s :: specFilterGo n rest (seen ∪ nGramsF (pyTokens s) n)
          else
            match (sentenceVariants s).find?
                (fun v => decide (nGramsF (pyTokens v) n ∩ seen = ∅)) with
            | some v => v :: specFilterGo n rest (seen ∪ nGramsF (pyTokens v) n)
            | none => specFilterGo n rest seen) = _
        rw [if_neg h]
      rw [h2]
      cases hf : (sentenceVariants s).find?
          (fun v => decide (nGramsF (pyTokens v) n ∩ seen = ∅)) with
      | none =>
        have h1 : avoidRepetitionAux n (s :: rest) seen = avoidRepetitionAux n rest seen := by
          show (match guardStep n seen s with
            | (some v, seen') =>
              ((v :: (avoidRepetitionAux n rest seen').1), (avoidRepetitionAux n rest seen').2)
            | (none, seen') => avoidRepetitionAux n rest seen') = _
          rw [hg, hf]
        rw [h1, ih]
      | some v =>
        have h1 : avoidRepetitionAux n (s :: rest) seen =
            ((v :: (avoidRepetitionAux n rest (seen ∪ nGramsF (pyTokens v) n)).1),
             (avoidRepetitionAux n rest (seen ∪ nGramsF (pyTokens v) n)).2) := by
          show (match guardStep n seen s with
            | (some v, seen') =>
              ((v :: (avoidRepetitionAux n rest seen').1), (avoidRepetitionAux n rest seen').2)
            | (none, seen') => avoidRepetitionAux n rest seen') = _
          rw [hg, hf]
        rw [h1, ih]

/-- C1: `_avoid_repetition` implements the clause-by-clause Repetition
Guard of the specification (accept as-is on no collision, else the first
non-colliding variant, else drop), its output is — in order — a choice
of variants of a sublist of the input (so relative order of survivors is
preserved), and the accepted n-gram signatures are pairwise disjoint, so
no accepted sentence's signature meets the n-grams already emitted in
the call's scope. -/
theorem c1_repetition_guard (candidates : List String) (N : Int) :
    avoidRepetition candidates N = specFilterSequence candidates N
    ∧ (∃ sub : List String, sub.Sublist candidates ∧
        List.Forall₂ (fun v s => v ∈ sentenceVariants s)
          (avoidRepetition candidates N) sub)
    ∧ List.Pairwise (fun a b => nGramsF (pyTokens a) N ∩ nGramsF (pyTokens b) N = ∅)
        (avoidRepetition candidates N) := by
  refine ⟨avoidAux_eq_specFilterGo N candidates ∅, ?_, ?_⟩
  · obtain ⟨_, _, _, sub, hsub, hfa⟩ := avoidAux_spec N candidates ∅
    exact ⟨sub, hsub, hfa⟩
  · exact (avoidAux_spec N candidates ∅).2.2.1

/-- C6: the Repetition Guard is idempotent — refiltering its own output
with the same n-gram size drops nothing and substitutes no variant. -/
theorem c6_guard_idempotent (l : List String) (N : Int) :
    avoidRepetition (avoidRepetition l N) N = avoidRepetition l N := by
  obtain ⟨_, _, hpw, _⟩ := avoidAux_spec N l ∅
  have hclean : ∀ a ∈ (avoidRepetitionAux N l ∅).1, nGramsF (pyTokens a) N ∩ ∅ = ∅ := by
    intro a _
    exact Finset.inter_empty _
  unfold avoidRepetition
  rw [avoidAux_of_clean N (avoidRepetitionAux N l ∅).1 ∅ hclean hpw]

/-- C7: within one pass of either guard the seen-set only grows — across
each single candidate (`guardStep`), across a whole `_avoid_repetition`
pass from any starting seen-set, and across a whole
`_apply_global_guard` pass from any starting seen-set. -/
theorem c7_seen_monotone :
    (∀ (N : Int) (seen : Finset (List String)) (s : String),
      seen ⊆ (guardStep N seen s).2)
    ∧ (∀ (N : Int) (l : List String) (seen : Finset (List String)),
      seen ⊆ (avoidRepetitionAux N l seen).2)
    ∧ (∀ (N : Int) (gs : List (List String)) (seen : Finset (List String)),
      seen ⊆ (applyGlobalGuardAux N gs seen).2) :=
  ⟨fun N seen s => guardStep_subset N seen s,
   fun N l seen => avoidAux_subset N l seen,
   fun N gs seen => globalAux_subset N gs seen⟩

/-- C10: for `N ≥ 1`, a sentence with fewer than `N` tokens has an empty
n-gram signature, so the shared guard step (the loop body of both
`_avoid_repetition` and `_apply_global_guard`) accepts it verbatim from
any seen-set — even one that already contains every n-gram of an
identical earlier sentence — and leaves the seen-set unchanged. -/
theorem c10_short_sentences (N : Int) (s : String) (seen : Finset (List String))
    (h1 : 1 ≤ N) (h2 : ((pyTokens s).length : Int) < N) :
    nGramsF (pyTokens s) N = ∅
    ∧ guardStep N seen s = (some s, seen)
    ∧ ∀ rest, avoidRepetitionAux N (s :: rest) seen =
        ((s :: (avoidRepetitionAux N rest seen).1), (avoidRepetitionAux N rest seen).2) := by
  have hrange : (((pyTokens s).length : Int) - N + 1).toNat = 0 := by omega
  have hempty : nGramsF (pyTokens s) N = ∅ := by
    unfold nGramsF
    rw [hrange]
    rfl
  have hstep : guardStep N seen s = (some s, seen) := by
    rw [guardStep_clean N seen s (by rw [hempty]; exact Finset.empty_inter _), hempty]
    rw [Finset.union_empty]
  refine ⟨hempty, hstep, ?_⟩
  intro rest
  show (match guardStep N seen s with
    | (some v, seen') =>
      ((v :: (avoidRepetitionAux N rest seen').1), (avoidRepetitionAux N rest seen').2)
    | (none, seen') => avoidRepetitionAux N rest seen') = _
  rw [hstep]

/-! ## Theorems: the uniqueness ratio (C5) -/

/-- Source `chunksOfGo` ignores the fuel as long as it bounds the length. -/
theorem chunksOfGo_congr {α : Type} (w : Nat) :
    ∀ (f1 : Nat) (l : List α) (f2 : Nat), l.length ≤ f1 → l.length ≤ f2 →
    chunksOfGo w f1 l = chunksOfGo w f2 l := by
  intro f1
  induction f1 with
  | zero =>
    intro l f2 h1 _
    have : l = [] := List.eq_nil_of_length_eq_zero (by omega)
    subst this
    cases f2 <;> rfl
  | succ f ih =>
    intro l f2 h1 h2
    cases l with
    | nil => cases f2 <;> rfl
    | cons x xs =>
      cases f2 with
      | zero => simp at h2
      | succ g =>
        show (if w = 0 then [x :: xs]
              else (x :: xs).take w :: chunksOfGo w f ((x :: xs).drop w)) =
             (if w = 0 then [x :: xs]
              else (x :: xs).take w :: chunksOfGo w g ((x :: xs).drop w))
        by_cases hw : w = 0
        · rw [if_pos hw, if_pos hw]
        · rw [if_neg hw, if_neg hw]
          congr 1
          apply ih
          · simp only [List.length_drop, List.length_cons] at *
            omega
          · simp only [List.length_drop, List.length_cons] at *
            omega

/-- Unfolding `chunksOf` at a non-empty list for a positive width. -/
theorem chunksOf_cons {α : Type} (w : Nat) (hw : 1 ≤ w) (x : α) (xs : List α) :
    chunksOf w (x :: xs) = (x :: xs).take w :: chunksOf w ((x :: xs).drop w) := by
  show (if w = 0 then [x :: xs]
        else (x :: xs).take w :: chunksOfGo w xs.length ((x :: xs).drop w)) = _
  rw [if_neg (by omega)]
  congr 1
  apply chunksOfGo_congr
  · simp only [List.length_drop, List.length_cons]
    omega
  · exact le_refl _

/-- The chunk-count recurrence behind Python's `range(0, len, w)`. -/
theorem numChunks_succ (len w : Nat) (h1 : 1 ≤ len) (hw : 1 ≤ w) :
    (len + w - 1) / w = ((len - w) + w - 1) / w + 1 := by
  rcases le_or_lt len w with h | h
  · have h2 : len - w = 0 := by omega
    rw [h2]
    have ha : (len + w - 1) / w = 1 :=
      Nat.div_eq_of_lt_le (by omega) (by omega)
    have hb : (0 + w - 1) / w = 0 := Nat.div_eq_of_lt (by omega)
    rw [ha, hb]
  · have h2 : len - w + w - 1 = len - 1 := by omega
    have h3 : len + w - 1 = (len - 1) + w := by omega
    rw [h2, h3, Nat.add_div_right _ (by omega)]

/-- Python's stepped range starts at 0 and recurses shifted by `w`. -/
theorem pyRangeStep_succ (len w : Nat) (h1 : 1 ≤ len) (hw : 1 ≤ w) :
    pyRangeStep len w = 0 :: (pyRangeStep (len - w) w).map (· + w) := by
  unfold pyRangeStep
  rw [numChunks_succ len w h1 hw, List.range_succ_eq_map]
  simp only [List.map_cons, Nat.zero_mul, List.map_map]
  congr 1
  apply List.map_congr_left
  intro i _
  simp [Function.comp, Nat.succ_mul]

/-- The slices Python's `range(0, len, w)` cuts are exactly the
consecutive chunks of size `w`. -/
theorem pyRangeStep_chunks {α : Type} (w : Nat) (hw : 1 ≤ w) :
    (l : List α) →
    (pyRangeStep l.length w).map (fun i => (l.drop i).take w) = chunksOf w l
  | [] => by
    have h0 : pyRangeStep 0 w = [] := by
      unfold pyRangeStep
      rw [Nat.div_eq_of_lt (by omega)]
      rfl
    simp [h0, chunksOf, chunksOfGo]
  | x :: xs => by
    rw [pyRangeStep_succ _ w (by simp) hw, chunksOf_cons w hw]
    simp only [List.map_cons, List.drop_zero, List.map_map]
    congr 1
    have hdrop : ∀ i : Nat, ((x :: xs).drop (i + w)) = (((x :: xs).drop w).drop i) := by
      intro i
      rw [List.drop_drop, Nat.add_comm]
    have hlen : ((x :: xs).drop w).length = (x :: xs).length - w := by
      simp
    calc ((pyRangeStep ((x :: xs).length - w) w).map
            (fun i => ((x :: xs).drop (i + w)).take w))
        = (pyRangeStep (((x :: xs).drop w).length) w).map
            (fun i => ((((x :: xs).drop w).drop i)).take w) := by
          rw [hlen]
          apply List.map_congr_left
          intro i _
          rw [hdrop i]
      _ = chunksOf w ((x :: xs).drop w) := pyRangeStep_chunks w hw ((x :: xs).drop w)
termination_by l => l.length
decreasing_by
  simp only [List.length_drop, List.length_cons]
  omega

/-- The guard-ratio fold accumulates exactly the two sums (a chunk with
no n-grams is skipped by the fold but contributes zero to both sums). -/
theorem ratio_fold (n : Int) :
    ∀ (chunks : List (List String)) (u t : Nat),
    chunks.foldl
      (fun (acc : Nat × Nat) chunk =>
        let grams := nGramsList chunk n
        if grams = [] then acc
        else (acc.1 + grams.toFinset.card, acc.2 + grams.length))
      (u, t)
    = (u + (chunks.map (fun c => (nGramsList c n).toFinset.card)).sum,
       t + (chunks.map (fun c => (nGramsList c n).length)).sum) := by
  intro chunks
  induction chunks with
  | nil => intro u t; simp
  | cons c cs ih =>
    intro u t
    simp only [List.foldl_cons, List.map_cons, List.sum_cons]
    by_cases hg : nGramsList c n = []
    · rw [if_pos hg, ih, hg]
      simp
    · rw [if_neg hg, ih]
      simp [Nat.add_assoc]

/-- The number of n-gram positions in a chunk. -/
theorem nGramsList_length (c : List String) (n : Int) :
    (nGramsList c n).length = ((c.length : Int) - n + 1).toNat := by
  simp [nGramsList]

/-- Source `_unique_ratio` equals the specification's ratio of sums. -/
theorem uniqueRatio_eq_spec (tokens : List String) (n : Int) (window : Int) :
    uniqueRatio tokens n window = specUniquenessRatio tokens n window := by
  by_cases ht : tokens = []
  · subst ht
    have : specTotalPositions [] n window = 0 ∨ True := Or.inr trivial
    simp [uniqueRatio, specUniquenessRatio]
  · have hchunks :
        ((pyRangeStep tokens.length (if window ≤ 0 then tokens.length else window.toNat)).map
          (fun i => (tokens.drop i).take (if window ≤ 0 then tokens.length else window.toNat)))
        = specChunks tokens window := by
      by_cases hw : window ≤ 0
      · simp only [if_pos hw]
        have hlen : 1 ≤ tokens.length := by
          cases tokens with
          | nil => exact absurd rfl ht
          | cons a l => simp
        have hone : pyRangeStep tokens.length tokens.length = [0] := by
          unfold pyRangeStep
          have : (tokens.length + tokens.length - 1) / tokens.length = 1 :=
            Nat.div_eq_of_lt_le (by omega) (by omega)
          rw [this]
          simp [List.range_succ]
        rw [hone]
        simp only [List.map_cons, List.map_nil, List.drop_zero, List.take_length]
        unfold specChunks
        rw [if_pos hw]
      · simp only [if_neg hw]
        have hw1 : 1 ≤ window.toNat := by omega
        rw [pyRangeStep_chunks window.toNat hw1 tokens]
        unfold specChunks
        rw [if_neg hw]
    unfold uniqueRatio specUniquenessRatio
    rw [if_neg ht]
    simp only [hchunks, ratio_fold]
    have hpos : (specChunks tokens window).map (fun c => (nGramsList c n).length)
        = (specChunks tokens window).map (fun c => ((c.length : Int) - n + 1).toNat) := by
      apply List.map_congr_left
      intro c _
      exact nGramsList_length c n
    have htot : ((specChunks tokens window).map (fun c => (nGramsList c n).length)).sum
        = specTotalPositions tokens n window := by
      rw [hpos]
      rfl
    simp only [Nat.zero_add, htot]
    have : (tokens = [] ∨ specTotalPositions tokens n window = 0)
        ↔ specTotalPositions tokens n window = 0 := by
      constructor
      · rintro (h | h)
        · exact absurd h ht
        · exact h
      · exact Or.inr
    by_cases h0 : specTotalPositions tokens n window = 0
    · rw [if_pos h0, if_pos (Or.inr h0)]
    · rw [if_neg h0, if_neg (by rw [this]; exact h0)]
      rfl

/-- C5: `_unique_ratio` partitions the token stream into `window`-sized
chunks (the whole stream when `window ≤ 0`), returns the ratio of the
summed distinct n-gram counts to the summed n-gram positions (chunks
shorter than `n` contribute zero to both sums), and returns exactly 1 on
an empty token list or when there are no n-gram positions at all. -/
theorem c5_unique_ratio (tokens : List String) (n : Int) (window : Int) :
    uniqueRatio tokens n window = specUniquenessRatio tokens n window
    ∧ uniqueRatio [] n window = 1
    ∧ (specTotalPositions tokens n window = 0 → uniqueRatio tokens n window = 1) := by
  refine ⟨uniqueRatio_eq_spec tokens n window, by simp [uniqueRatio], ?_⟩
  intro h0
  rw [uniqueRatio_eq_spec]
  unfold specUniquenessRatio
  rw [if_pos (Or.inr h0)]

/-- Witness for C5's conditional conjunct: two tokens, `n = 5`: the single
chunk is shorter than `n`, so there are no positions and the ratio is 1. -/
theorem c5_witness :
    specTotalPositions ["a", "b"] 5 2 = 0 ∧ uniqueRatio ["a", "b"] 5 2 = 1 :=
  ⟨by decide, (c5_unique_ratio ["a", "b"] 5 2).2.2 (by decide)⟩

/-! ## Theorems: totality of the generation pipeline, and C8 -/

/-- A modular pick from a non-empty list is a member of it. -/
theorem getD_mod_mem {α : Type} (l : List α) (i : Nat) (d : α) (h : l ≠ []) :
    l.getD (i % l.length) d ∈ l := by
  have hlen : 0 < l.length := List.length_pos.mpr h
  have hi : i % l.length < l.length := Nat.mod_lt _ hlen
  rw [List.getD_eq_getElem l d hi]
  exact List.getElem_mem hi

/-- Source `rng.choice` picks a member of a non-empty list. -/
theorem pyChoiceD_mem {α : Type} (M : EnvModel) (st : Nat) (l : List α) (d : α)
    (h : l ≠ []) : (pyChoiceD M st l d).1 ∈ l :=
  getD_mod_mem l (M.next st).1 d h

/-- Every template in the beat-template bank formats successfully against
the `fill` dict: the dict always carries every placeholder the six
templates mention, whatever the drawn filler values are. -/
theorem beatTemplates_format_total (tpl : String) (h : tpl ∈ beatTemplates)
    (plan : StoryPlan) (fb : FillBase) (dpfx pin cv av : String) :
    (pyFormat tpl (mkFill plan fb dpfx pin cv av)).isSome = true := by
  fin_cases h <;> rfl

/-- Every stake pattern formats successfully against the two stake
fillers, whatever their drawn values are. -/
theorem stakePatterns_format_total (tpl : String) (h : tpl ∈ stakePatterns)
    (c s : String) :
    (pyFormat tpl [("consequence", c), ("silver", s)]).isSome = true := by
  fin_cases h <;> rfl

/-- The sentence loop of `expand_beat` never fails: each drawn template
formats. -/
theorem expandBeatGo_total (M : EnvModel) (plan : StoryPlan) (tone : String)
    (fb : FillBase) :
    ∀ (k st : Nat), ∃ out stF, expandBeatGo M plan tone fb k st = some (out, stF) := by
  intro k
  induction k with
  | zero => intro st; exact ⟨[], st, rfl⟩
  | succ kk ih =>
    intro st
    have hmem : (pyChoiceD M st beatTemplates "").1 ∈ beatTemplates :=
      pyChoiceD_mem M st beatTemplates "" (by decide)
    unfold expandBeatGo
    dsimp only
    split
    next heq =>
      exfalso
      have htot := beatTemplates_format_total _ hmem plan fb
        (pyChoice M (pyChoiceD M st beatTemplates "").2 detailPrefixes).1
        (pyChoice M (pyChoice M (pyChoiceD M st beatTemplates "").2
          detailPrefixes).2 placeIntros).1
        (pyChoice M (pyChoice M (pyChoice M (pyChoiceD M st beatTemplates "").2
          detailPrefixes).2 placeIntros).2 chooseVerbs).1
        (pyChoice M (pyChoice M (pyChoice M (pyChoice M
          (pyChoiceD M st beatTemplates "").2 detailPrefixes).2 placeIntros).2
          chooseVerbs).2 allySuggests).1
      rw [heq] at htot
      simp at htot
    next s heq =>
      obtain ⟨out, stF, hgo⟩ := ih (styleSentence M s tone
        (pyChoice M (pyChoice M (pyChoice M (pyChoice M (pyChoiceD M st beatTemplates "").2
          detailPrefixes).2 placeIntros).2 chooseVerbs).2 allySuggests).2).2
      rw [hgo]
      exact ⟨_, _, rfl⟩

/-- The guard never drops the first sentence of a pass that starts from an
empty seen-set. -/
theorem avoidRepetition_cons_head (s : String) (rest : List String) (n : Int) :
    avoidRepetition (s :: rest) n =
      s :: (avoidRepetitionAux n rest (nGramsF (pyTokens s) n)).1 := by
  unfold avoidRepetition
  have hstep := guardStep_clean n ∅ s (Finset.inter_empty _)
  show (match guardStep n ∅ s with
    | (some v, seen') =>
      ((v :: (avoidRepetitionAux n rest seen').1), (avoidRepetitionAux n rest seen').2)
    | (none, seen') => avoidRepetitionAux n rest seen').1 = _
  rw [hstep]
  rw [Finset.empty_union]

/-- Source `expand_beat` always returns a non-empty sentence list: no template
ever fails to format, and the per-beat guard keeps the anchor sentence. -/
theorem expandBeat_total (M : EnvModel) (b : String) (plan : StoryPlan)
    (tone : String) (st : Nat) (cache : Cache) :
    ∃ out, expandBeat M b plan tone st cache = some out ∧ out ≠ [] := by
  unfold expandBeat
  dsimp only
  split
  next heq =>
    exfalso
    obtain ⟨out, stF, hgo⟩ := expandBeatGo_total M plan tone _ _ _
    rw [heq] at hgo
    cases hgo
  next rest stF heq =>
    refine ⟨_, rfl, ?_⟩
    rw [avoidRepetition_cons_head]
    simp

/-- An unknown beat name does not raise: the expansion is exactly the
default-prompt expansion, identical for any two unknown beat names. -/
theorem expandBeat_unknown_congr (M : EnvModel) (plan : StoryPlan)
    (tone : String) (st : Nat) (cache : Cache) (b b' : String)
    (h : (basePrompts plan).lookup b = none)
    (h' : (basePrompts plan).lookup b' = none) :
    expandBeat M b plan tone st cache = expandBeat M b' plan tone st cache := by
  unfold expandBeat
  rw [h, h']

/-- A beat absent from a theme's template map yields the literal sentence
`"."` in `ContentEngine.generate` — an empty pick, clamped and
period-terminated — not an error. -/
theorem contentBeatPick_missing (M : EnvModel) (tmap : List (String × List String))
    (b : String) (ph : List (String × String)) (rlevel : Rat) (st : Nat)
    (h : tmap.lookup b = none) :
    contentBeatPick M tmap b ph rlevel st = some (".", st) := by
  unfold contentBeatPick contentChoose
  rw [h]
  simp only [Option.getD_none, if_pos rfl]
  show (match pyFormat "" ph with
    | none => none
    | some pick => _) = _
  have hfmt : pyFormat "" ph = some "" := rfl
  rw [hfmt]
  simp only [show pyWords "" = [] from rfl, List.take_nil]
  rfl

/-- Counterexample to C8: an unknown beat template does **not** raise — a
beat name outside `base_prompts` still produces a normal (non-`none`)
expansion in `expand_beat`, and a beat with no templates in the theme map
produces the sentence `"."` in `ContentEngine.generate`. -/
theorem c8_counterexample :
    (basePrompts plan0).lookup "Epilogue" = none
    ∧ expandBeat trivModel "Epilogue" plan0 "serious" 0 cacheShort ≠ none
    ∧ enMagicalForest.lookup "epilogue" = none
    ∧ contentBeatPick trivModel enMagicalForest "epilogue" placeholders0 1 0 ≠ none := by
  refine ⟨by decide, ?_, by decide, ?_⟩
  · obtain ⟨out, hsome, _⟩ :=
      expandBeat_total trivModel "Epilogue" plan0 "serious" 0 cacheShort
    rw [hsome]
    simp
  · rw [contentBeatPick_missing trivModel enMagicalForest "epilogue" placeholders0 1 0
      (by decide)]
    simp

/-- C8 amended: an unknown beat template is handled by a silent default,
not an error.  `expand_beat` substitutes the fixed default prompt — any
two unknown beat names expand identically — and always returns a normal,
non-empty sentence list; the per-beat pick of `ContentEngine.generate`
turns a beat with no templates into the sentence `"."`. -/
theorem c8_fallback_amended :
    (∀ (M : EnvModel) (plan : StoryPlan) (tone : String) (st : Nat) (cache : Cache)
       (b b' : String), (basePrompts plan).lookup b = none →
       (basePrompts plan).lookup b' = none →
       expandBeat M b plan tone st cache = expandBeat M b' plan tone st cache)
    ∧ (∀ (M : EnvModel) (b : String) (plan : StoryPlan) (tone : String) (st : Nat)
         (cache : Cache), ∃ out, expandBeat M b plan tone st cache = some out ∧ out ≠ [])
    ∧ (∀ (M : EnvModel) (tmap : List (String × List String)) (b : String)
         (ph : List (String × String)) (rlevel : Rat) (st : Nat),
         tmap.lookup b = none → contentBeatPick M tmap b ph rlevel st = some (".", st)) :=
  ⟨fun M plan tone st cache b b' h h' =>
      expandBeat_unknown_congr M plan tone st cache b b' h h',
   fun M b plan tone st cache => expandBeat_total M b plan tone st cache,
   fun M tmap b ph rlevel st h => contentBeatPick_missing M tmap b ph rlevel st h⟩

/-- Witness for C8's amended statement at concrete unknown beats. -/
theorem c8_witness :
    (basePrompts plan0).lookup "Epilogue" = none
    ∧ expandBeat trivModel "Epilogue" plan0 "serious" 0 cacheShort =
        expandBeat trivModel "Prologue" plan0 "serious" 0 cacheShort
    ∧ contentBeatPick trivModel enMagicalForest "epilogue" placeholders0 1 0 =
        some (".", 0) :=
  ⟨by decide,
   c8_fallback_amended.1 trivModel plan0 "serious" 0 cacheShort "Epilogue" "Prologue"
     (by decide) (by decide),
   c8_fallback_amended.2.2 trivModel enMagicalForest "epilogue" placeholders0 1 0
     (by decide)⟩

/-- A drawn stake pattern always formats against the two stake fillers. -/
theorem stake_format_ne_none (M : EnvModel) (st : Nat) (c s : String) :
    pyFormat (pyChoice M st stakePatterns).1
      [("consequence", c), ("silver", s)] ≠ none := by
  have hmem := pyChoiceD_mem M st stakePatterns "" (by decide)
  have htot := stakePatterns_format_total _ hmem c s
  intro h
  rw [show pyChoice M st stakePatterns = pyChoiceD M st stakePatterns "" from rfl] at h
  rw [h] at htot
  simp at htot

/-- Source `plan_story` never raises: the stake template always formats. -/
theorem planStory_total (M : EnvModel) (urnd : Nat → Int) (k : Nat)
    (cfg : StoryConfig) :
    ∃ plan kF, planStory M urnd k cfg = some (plan, kF) := by
  unfold planStory
  dsimp only
  split
  next heq => exact absurd heq (stake_format_ne_none M _ _ _)
  next stakes heq => exact ⟨_, _, rfl⟩

/-- The beat loop of `generate_story` never fails. -/
theorem expandBeats_total (M : EnvModel) (urnd : Nat → Int) (seed : Option Int)
    (plan : StoryPlan) (tone : String) (cache : Cache) :
    ∀ (bs : List String) (k : Nat),
    ∃ groups kF, expandBeats M urnd seed plan tone cache bs k = some (groups, kF) := by
  intro bs
  induction bs with
  | nil => intro k; exact ⟨[], k, rfl⟩
  | cons b rest ih =>
    intro k
    obtain ⟨out, hout, _⟩ :=
      expandBeat_total M b plan tone (rngInit M urnd k seed).1 cache
    obtain ⟨groups, kF, hgroups⟩ := ih (rngInit M urnd k seed).2
    refine ⟨out :: groups, kF, ?_⟩
    unfold expandBeats
    dsimp only
    rw [hout, hgroups]

/-- Source `generate_story` always returns a story: the result is `some`, the
timestamp is the wall-clock input plus `"Z"`, the guard flag is exactly
the comparison of the 4-gram uniqueness of the returned text against the
length threshold, the recorded score is the rounded ratio, and the text
is the blank-line join of the returned paragraphs — all regardless of
whether the comparison passes. -/
theorem generateStory_total (M : EnvModel) (urnd : Nat → Int) (ts : String)
    (cfg : StoryConfig) (cacheIn : Cache) :
    ∃ out, (generateStory M urnd ts cfg cacheIn).1 = some out
    ∧ out.meta.timestamp = ts ++ "Z"
    ∧ out.meta.antiRepetitionPassed =
        decide (pyThreshold cfg.length ≤
          uniqueNgramRatio (findTokens (pyLower out.text)) 4)
    ∧ out.meta.uniquenessScore =
        M.round4 (uniqueNgramRatio (findTokens (pyLower out.text)) 4)
    ∧ out.text = joinWith "\n\n" out.paragraphs
    ∧ out.meta.beats = beatOrder
    ∧ out.meta.length = cfg.length
    ∧ out.meta.seed = cfg.seed := by
  obtain ⟨plan, kF, hplan⟩ :=
    planStory_total M urnd (rngInit M urnd 0 cfg.seed).2 cfg
  obtain ⟨groups, kG, hgroups⟩ := expandBeats_total M urnd cfg.seed plan cfg.tone
    ⟨some cfg.length, some (cfg.seed.getD 0)⟩ beatOrder kF
  unfold generateStory
  dsimp only
  rw [hplan]
  dsimp only
  rw [hgroups]
  exact ⟨_, rfl, rfl, rfl, rfl, rfl, rfl, rfl, rfl⟩

/-- C9: `generate_story` scores the assembled text's `[a-z']` tokens at
n = 4, records pass/fail and the rounded score only as metadata, and
still returns the full story (`some` output whose text is the blank-line
join of its paragraphs) whatever the comparison's outcome; the
thresholds are 0.86 for `"short"`, 0.90 for `"medium"`, 0.92 for
`"long"`, and 0.90 for any other length key. -/
theorem c9_threshold_advisory :
    (∀ (M : EnvModel) (urnd : Nat → Int) (ts : String) (cfg : StoryConfig)
       (cacheIn : Cache),
      ∃ out, (generateStory M urnd ts cfg cacheIn).1 = some out
      ∧ out.meta.antiRepetitionPassed =
          decide (pyThreshold cfg.length ≤
            uniqueNgramRatio (findTokens (pyLower out.text)) 4)
      ∧ out.meta.uniquenessScore =
          M.round4 (uniqueNgramRatio (findTokens (pyLower out.text)) 4)
      ∧ out.text = joinWith "\n\n" out.paragraphs)
    ∧ pyThreshold "short" = 86 / 100
    ∧ pyThreshold "medium" = 9 / 10
    ∧ pyThreshold "long" = 92 / 100
    ∧ ∀ lk : String, lk ∉ (["short", "medium", "long"] : List String) →
        pyThreshold lk = 9 / 10 := by
  refine ⟨?_, rfl, rfl, rfl, ?_⟩
  · intro M urnd ts cfg cacheIn
    obtain ⟨out, h1, _, h3, h4, h5, _⟩ := generateStory_total M urnd ts cfg cacheIn
    exact ⟨out, h1, h3, h4, h5⟩
  · intro lk hlk
    simp only [List.mem_cons, List.mem_singleton, not_or] at hlk
    obtain ⟨h1, h2, h3, _⟩ := hlk
    unfold pyThreshold
    have e1 : (lk == "short") = false := beq_eq_false_iff_ne.mpr h1
    have e2 : (lk == "medium") = false := beq_eq_false_iff_ne.mpr h2
    have e3 : (lk == "long") = false := beq_eq_false_iff_ne.mpr h3
    simp [List.lookup, e1, e2, e3]

/-- Witness for C9's conditional threshold conjunct and a concrete run. -/
theorem c9_witness :
    pyThreshold "epic" = 9 / 10
    ∧ ∃ out, (generateStory trivModel urnd0 "2025-01-01T00:00:00" cfg0 cache0).1 =
        some out :=
  ⟨c9_threshold_advisory.2.2.2.2 "epic" (by decide),
   by
    obtain ⟨out, h1, _⟩ := c9_threshold_advisory.1 trivModel urnd0
      "2025-01-01T00:00:00" cfg0 cache0
    exact ⟨out, h1⟩⟩

/-! ## Theorems: reproducibility with an explicit seed (C2) -/

/-- With an explicit seed, `plan_story` never consults the entropy
stream: its result is the same under any two entropy streams. -/
theorem planStory_seeded (M : EnvModel) (u1 u2 : Nat → Int) (k : Nat)
    (cfg : StoryConfig) (s : Int) (h : cfg.seed = some s) :
    planStory M u1 k cfg = planStory M u2 k cfg := by
  unfold planStory
  rw [h]
  rfl

/-- With an explicit seed, the beat loop never consults the entropy
stream. -/
theorem expandBeats_seeded (M : EnvModel) (u1 u2 : Nat → Int) (s : Int)
    (plan : StoryPlan) (tone : String) (cache : Cache) :
    ∀ (bs : List String) (k : Nat),
    expandBeats M u1 (some s) plan tone cache bs k =
      expandBeats M u2 (some s) plan tone cache bs k := by
  intro bs
  induction bs with
  | nil => intro k; rfl
  | cons b rest ih =>
    intro k
    unfold expandBeats
    dsimp only
    simp only [rngInit]
    cases hE : expandBeat M b plan tone (M.init s) cache with
    | none => rfl
    | some sents =>
      dsimp only
      rw [ih k]

/-- With an explicit seed, `generate_story` is independent of the entropy
stream, the wall clock, and the incoming global cache, up to the
timestamp field of the metadata. -/
theorem generateStory_seeded (M : EnvModel) (u1 u2 : Nat → Int)
    (ts1 ts2 : String) (c1 c2 : Cache) (cfg : StoryConfig) (s : Int)
    (h : cfg.seed = some s) :
    Option.map stripTimestamp (generateStory M u1 ts1 cfg c1).1 =
      Option.map stripTimestamp (generateStory M u2 ts2 cfg c2).1 := by
  unfold generateStory
  rw [h]
  simp only [rngInit]
  rw [planStory_seeded M u1 u2 0 cfg s h]
  cases hp : planStory M u2 0 cfg with
  | none => rfl
  | some pk =>
    obtain ⟨plan, kF⟩ := pk
    dsimp only
    rw [expandBeats_seeded M u1 u2 s plan cfg.tone
      ⟨some cfg.length, some ((some s).getD 0)⟩ beatOrder kF]
    cases hE : expandBeats M u2 (some s) plan cfg.tone
        ⟨some cfg.length, some ((some s).getD 0)⟩ beatOrder kF with
    | none => rfl
    | some gk => rfl

/-- Counterexample to C2 as stated: the full return value of
`generate_story` is **not** byte-identical across two calls with the same
explicit-seed config, because `meta["timestamp"]` records the wall clock
(`datetime.utcnow().isoformat() + "Z"`), which differs between calls. -/
theorem c2_counterexample :
    (generateStory trivModel urnd0 "2025-01-01T00:00:00" cfg0 cache0).1 ≠
      (generateStory trivModel urnd0 "2025-01-01T00:00:01" cfg0 cache0).1 := by
  obtain ⟨o1, h1, ht1, _⟩ :=
    generateStory_total trivModel urnd0 "2025-01-01T00:00:00" cfg0 cache0
  obtain ⟨o2, h2, ht2, _⟩ :=
    generateStory_total trivModel urnd0 "2025-01-01T00:00:01" cfg0 cache0
  intro heq
  rw [h1, h2] at heq
  have ho : o1 = o2 := Option.some.inj heq
  rw [ho, ht2] at ht1
  exact absurd ht1 (by decide)

/-- C2 amended: with an explicit seed and external augmentation disabled,
two `generate_story` calls with identical config fields return identical
story text, identical paragraph lists, and identical metadata apart from
the timestamp field — regardless of the entropy source, the wall clock,
and the pre-existing global cache (so full byte-identity fails only on
`meta["timestamp"]`). -/
theorem c2_reproducible_amended (M : EnvModel) (u1 u2 : Nat → Int)
    (ts1 ts2 : String) (c1 c2 : Cache) (cfg : StoryConfig) (s : Int)
    (h : cfg.seed = some s) (hllm : cfg.enableLlm = false) :
    Option.map stripTimestamp (generateStory M u1 ts1 cfg c1).1 =
      Option.map stripTimestamp (generateStory M u2 ts2 cfg c2).1
    ∧ Option.map StoryOutput.text (generateStory M u1 ts1 cfg c1).1 =
        Option.map StoryOutput.text (generateStory M u2 ts2 cfg c2).1
    ∧ Option.map StoryOutput.paragraphs (generateStory M u1 ts1 cfg c1).1 =
        Option.map StoryOutput.paragraphs (generateStory M u2 ts2 cfg c2).1 := by
  have hmap := generateStory_seeded M u1 u2 ts1 ts2 c1 c2 cfg s h
  have keyT : ∀ (r : Option StoryOutput),
      Option.map StoryOutput.text r =
        Option.map StoryOutput.text (Option.map stripTimestamp r) := by
    intro r; cases r <;> rfl
  have keyP : ∀ (r : Option StoryOutput),
      Option.map StoryOutput.paragraphs r =
        Option.map StoryOutput.paragraphs (Option.map stripTimestamp r) := by
    intro r; cases r <;> rfl
  refine ⟨hmap, ?_, ?_⟩
  · rw [keyT ((generateStory M u1 ts1 cfg c1).1),
      keyT ((generateStory M u2 ts2 cfg c2).1), hmap]
  · rw [keyP ((generateStory M u1 ts1 cfg c1).1),
      keyP ((generateStory M u2 ts2 cfg c2).1), hmap]

/-- Witness for C2's amended statement: a concrete explicit-seed config,
two different entropy streams, wall clocks, and caches. -/
theorem c2_witness :
    cfg0.seed = some 42 ∧ cfg0.enableLlm = false ∧
    Option.map StoryOutput.text
        (generateStory trivModel urnd0 "2025-01-01T00:00:00" cfg0 cache0).1 =
      Option.map StoryOutput.text
        (generateStory trivModel (fun _ => 7) "2026-06-06T06:06:06" cfg0 cacheShort).1 :=
  ⟨rfl, rfl,
   (c2_reproducible_amended trivModel urnd0 (fun _ => 7) "2025-01-01T00:00:00"
     "2026-06-06T06:06:06" cache0 cacheShort cfg0 42 rfl rfl).2.1⟩

/-! ## Theorems: sentence variants (C3) and n-grams (C4) -/

/-- Counterexample to C3: `str.replace` replaces **every** occurrence of
the substring `"and"` (even inside words) and every comma, not just the
first word occurrence, so the claimed variant list is wrong on an input
with several `and`s/commas. -/
theorem c3_counterexample :
    sentenceVariants "A band marches, and sings, and rests." ≠
      ["A band marches, and sings, and rests.",
       "A band marches, & sings, and rests.",
       "A band marches— and sings, and rests.",
       "A band marches, and sings, and rests"] := by decide

/-- C3 amended: `variants` is deterministic with the original first and
at most 4 entries — the original; the sentence with **all** occurrences
of the substring `"and"` replaced by `"&"`; the sentence with **all**
commas replaced by `"—"`; and, if the sentence ends with `"."`, the
sentence with the trailing period stripped.  On the specification's own
scenario-4 input (one `"and"`, one comma) this agrees with the claimed
first-occurrence reading. -/
theorem c3_variants_amended (s : String) :
    (sentenceVariants s).head? = some s
    ∧ (sentenceVariants s).length = (if endsWithChar s '.' then 4 else 3)
    ∧ sentenceVariants s =
        [s, pyReplace s "and" "&", pyReplace s "," "—"] ++
          (if endsWithChar s '.' then [String.mk s.data.dropLast] else [])
    ∧ sentenceVariants "A cat, and a dog." =
        ["A cat, and a dog.", "A cat, & a dog.", "A cat— and a dog.",
         "A cat, and a dog"] := by
  refine ⟨?_, ?_, ?_, by decide⟩ <;>
    · unfold sentenceVariants
      split <;> simp

/-- Counterexample to C4: for `n = 0` (and any `n ≤ 0`) `_n_grams` does
not return the empty set — every slice `tokens[i:i+n]` is empty but the
index range `range(max(0, len - n + 1))` is non-empty, so the result is
the singleton set of the empty tuple, already on empty input. -/
theorem c4_counterexample :
    nGramsF ([] : List String) 0 ≠ (∅ : Finset (List String)) := by decide

/-- C4 amended: for `n ≤ 0` the result is the singleton of the empty
tuple; for `n ≥ 1` the result is empty when the token list is shorter
than `n`, is exactly the set of length-`n` contiguous windows, and has
at most `max(0, len - n + 1)` elements. -/
theorem c4_ngrams_amended (t : List String) (n : Int) :
    (n ≤ 0 → nGramsF t n = {[]})
    ∧ (1 ≤ n → (t.length : Int) < n → nGramsF t n = ∅)
    ∧ (1 ≤ n → ∀ x, x ∈ nGramsF t n ↔
        ∃ i : Nat, (i : Int) + n ≤ (t.length : Int) ∧ x = (t.drop i).take n.toNat)
    ∧ (1 ≤ n → (nGramsF t n).card ≤ ((t.length : Int) - n + 1).toNat) := by
  refine ⟨?_, ?_, ?_, ?_⟩
  · intro hn
    have htake : n.toNat = 0 := Int.toNat_of_nonpos hn
    have hP : 0 < ((t.length : Int) - n + 1).toNat := by omega
    ext x
    simp only [nGramsF, List.mem_toFinset, List.mem_map, List.mem_range, htake,
      List.take_zero, Finset.mem_singleton]
    constructor
    · rintro ⟨i, _, rfl⟩; rfl
    · rintro rfl; exact ⟨0, hP, rfl⟩
  · intro _ hlen
    have hP : ((t.length : Int) - n + 1).toNat = 0 := by omega
    unfold nGramsF
    rw [hP]
    rfl
  · intro _ x
    simp only [nGramsF, List.mem_toFinset, List.mem_map, List.mem_range]
    constructor
    · rintro ⟨i, hi, rfl⟩
      refine ⟨i, ?_, rfl⟩
      have := (Int.lt_toNat).mp hi
      omega
    · rintro ⟨i, hi, rfl⟩
      refine ⟨i, ?_, rfl⟩
      rw [Int.lt_toNat]
      omega
  · intro _
    calc (nGramsF t n).card
        ≤ ((List.range ((t.length : Int) - n + 1).toNat).map
            (fun i => (t.drop i).take n.toNat)).length := List.toFinset_card_le _
      _ = ((t.length : Int) - n + 1).toNat := by simp

/-- Witness for C4's conditional conjuncts at concrete inputs. -/
theorem c4_witness :
    nGramsF ([] : List String) (-1) = {[]}
    ∧ nGramsF ["a"] 2 = ∅
    ∧ ["a", "b"] ∈ nGramsF ["a", "b", "a", "b"] 2
    ∧ (nGramsF ["a", "b", "a", "b"] 2).card ≤ 3 :=
  ⟨(c4_ngrams_amended [] (-1)).1 (by decide),
   (c4_ngrams_amended ["a"] 2).2.1 (by decide) (by decide),
   ((c4_ngrams_amended ["a", "b", "a", "b"] 2).2.2.1 (by decide) ["a", "b"]).mpr
     ⟨0, by decide, by decide⟩,
   le_trans ((c4_ngrams_amended ["a", "b", "a", "b"] 2).2.2.2 (by decide)) (by decide)⟩

/-- Witness for C10 at a concrete short sentence against a seen-set that
already contains its (empty) signature's context: `"the cat"` has two
tokens, fewer than `N = 3`, and is accepted verbatim. -/
theorem c10_witness :
    (1 : Int) ≤ 3 ∧ ((pyTokens "the cat").length : Int) < 3 ∧
    guardStep 3 (nGramsF (pyTokens "the cat sat on the mat") 3) "the cat" =
      (some "the cat", nGramsF (pyTokens "the cat sat on the mat") 3) :=
  ⟨by decide, by decide,
   (c10_short_sentences 3 "the cat" (nGramsF (pyTokens "the cat sat on the mat") 3)
     (by decide) (by decide)).2.1⟩

end Bedtime
